import Mathlib

/-!
Verification of the notification-driven task dispatcher `neon_cc_agent.py`
(together with the `run_claude.sh` shell script it generates) against its
natural-language specification.

The development shallowly embeds the dispatcher:
* character-list scanners mirror the bash regular-expression matches,
* the per-notification pipeline of `check_webhook_events` becomes a pure
  decision function on a record of the notification fields it reads,
* the generated shell script (workspace setup, two supervised `claude`
  invocations under `timeout --kill-after=30`, and the status comments it
  posts) becomes a pure function from the script inputs to a record of
  observable effects.
-/

/-- Boolean test that `p` is a prefix of `s` (character lists). -/
def seqStarts : List Char → List Char → Bool
  | [], _ => true
  | _ :: _, [] => false
  | a :: as, b :: bs => a == b && seqStarts as bs

/-- Boolean test that `p` occurs as a contiguous run inside `s`;
mirrors a substring / unanchored regular-expression literal match. -/
def seqContains (p : List Char) : List Char → Bool
  | [] => seqStarts p []
  | b :: bs => seqStarts p (b :: bs) || seqContains p bs

/-- Substring test on strings, as Python's `pattern in body`. -/
def strContains (pat s : String) : Bool :=
  seqContains pat.data s.data

theorem seqStarts_iff (p s : List Char) :
    seqStarts p s = true ↔ ∃ t, s = p ++ t := by
  induction p generalizing s with
  | nil => simp [seqStarts]
  | cons a as ih =>
    cases s with
    | nil => simp [seqStarts]
    | cons b bs =>
      simp only [seqStarts, Bool.and_eq_true, beq_iff_eq, ih]
      constructor
      · rintro ⟨rfl, t, rfl⟩; exact ⟨t, rfl⟩
      · rintro ⟨t, h⟩
        injection h with h1 h2
        exact ⟨h1.symm, t, h2⟩

theorem seqContains_iff (p s : List Char) :
    seqContains p s = true ↔ ∃ a b, s = a ++ p ++ b := by
  induction s with
  | nil =>
    simp only [seqContains, seqStarts_iff]
    constructor
    · rintro ⟨t, h⟩
      exact ⟨[], t, by simpa using h⟩
    · rintro ⟨a, b, h⟩
      rcases List.append_eq_nil.mp ((List.append_eq_nil.mp h.symm).1) with ⟨h1, h2⟩
      exact ⟨b, by simp_all⟩
  | cons x xs ih =>
    simp only [seqContains, Bool.or_eq_true, seqStarts_iff, ih]
    constructor
    · rintro (⟨t, h⟩ | ⟨a, b, rfl⟩)
      · exact ⟨[], t, by simpa using h⟩
      · exact ⟨x :: a, b, rfl⟩
    · rintro ⟨a, b, h⟩
      cases a with
      | nil => exact Or.inl ⟨b, by simpa using h⟩
      | cons y a' =>
        injection h with h1 h2
        exact Or.inr ⟨a', b, h2⟩

theorem seqStarts_append (p t : List Char) : seqStarts p (p ++ t) = true := by
  induction p with
  | nil => rfl
  | cons a as ih => simp [seqStarts, ih]

theorem seqContains_mid (a p b : List Char) :
    seqContains p (a ++ p ++ b) = true :=
  (seqContains_iff p _).mpr ⟨a, b, rfl⟩

/-- The fixed list of automated-comment markers from `check_webhook_events`
(`system_comment_patterns`, `neon_cc_agent.py` lines 137-142). -/
def system_comment_patterns : List String :=
  ["Claude CLI command completed successfully",
   "Issue automatically reopened due to new comment",
   "Added new changes for issue #",
   "Commit task completed successfully"]

/-- The feedback filter actually implemented by `check_webhook_events`
(line 143): the body is classified as an automated system comment exactly
when it contains one of the four fixed marker substrings. -/
def isSystemComment (body : String) : Bool :=
  system_comment_patterns.any (fun p => strContains p body)

/-- Modelled from the spec (section 4.2), for comparison with the
implemented filter `isSystemComment`: success/failure markers that must
co-occur with a status glyph. -/
def specNoiseMarkers : List String :=
  ["Task failed:", "completed successfully in", "Commit task"]

/-- Modelled from the spec (section 4.2): the success/failure status
glyphs emitted by the reporter. -/
def specStatusGlyphs : List String := ["✅", "❌"]

/-- Modelled from the spec (section 4.2): recognizer for the issue-closure
echo pattern, a body matching `Closed #<n> as completed`. -/
def specClosedEchoSeq : List Char → Bool
  | [] => false
  | c :: cs =>
    (seqStarts "Closed #".data (c :: cs) &&
      (let rest := (c :: cs).drop 8
       let ds := rest.takeWhile Char.isDigit
       !ds.isEmpty && seqStarts " as completed".data (rest.dropWhile Char.isDigit)))
    || specClosedEchoSeq cs

/-- Modelled from the spec (section 4.2): the feedback filter the spec
describes — marker together with a status glyph, or an issue-closure echo. -/
def specIsNoise (body : String) : Bool :=
  (specNoiseMarkers.any (fun m => strContains m body) &&
    specStatusGlyphs.any (fun g => strContains g body))
  || specClosedEchoSeq body.data

/-- One GitHub notification together with the issue data the dispatcher
fetches for it; exactly the fields `check_webhook_events` reads. The
`sender` field records the spec's sender identity of an inbound event —
the source code never reads any sender field. -/
structure Notification where
  sender : String
  hasSubject : Bool
  hasRepository : Bool
  subjectType : Option String
  repoHtmlUrl : Option String
  title : String
  issueBody : String
  comments : List String
  issueState : String
  stateReason : Option String
  issueHtmlUrl : String
deriving DecidableEq

/-- Truthiness and membership test of
`notification_type not in [Issue, IssueComment]` (line 91). -/
def typeOk : Option String → Bool
  | some "Issue" => true
  | some "IssueComment" => true
  | _ => false

/-- The body text used for filtering and for the prompt (lines 113-134):
the issue body, replaced by the body of the last (most recent) comment
when the comments list is non-empty. -/
def effectiveBody (issueBody : String) (comments : List String) : String :=
  match comments.getLast? with
  | some c => c
  | none => issueBody

/-- Outcome of processing one notification in `check_webhook_events`. -/
inductive ProcOutcome
  | droppedMissingFields
  | droppedType
  | droppedNoise
  | droppedNoComment
  | droppedNoRepoUrl
  | launched (repoUrl issueUrl subject body : String)
deriving DecidableEq

/-- The per-notification decision pipeline of `check_webhook_events`
(lines 79-220), in source order: required-field check, notification-type
check, latest-comment substitution, automated-comment filter, the
empty-body/closed-issue skip, repository-URL presence check, and finally
the launch of `run_claude_cli` with the repository and issue URLs
exported to the environment. -/
def processNotification (n : Notification) : ProcOutcome :=
  if !n.hasSubject || !n.hasRepository then .droppedMissingFields
  else if !typeOk n.subjectType then .droppedType
  else
    let body := effectiveBody n.issueBody n.comments
    if isSystemComment body then .droppedNoise
    else if body = "" &&
        (n.issueState == "closed" || n.stateReason == some "reopened" ||
          n.stateReason == some "completed") then .droppedNoComment
    else
      match n.repoHtmlUrl with
      | none => .droppedNoRepoUrl
      | some repoUrl => .launched repoUrl n.issueHtmlUrl n.title body

/-- The bash pattern `github\.com[:/]` written out: the literal marker
followed by a colon separator. -/
def ghSepColon : List Char := "github.com:".data

/-- The bash pattern `github\.com[:/]` written out: the literal marker
followed by a slash separator. -/
def ghSepSlash : List Char := "github.com/".data

/-- One attempt of the bash regex `github\.com[:/]([^/]+)/([^/.]+)` at a
fixed position: `rest` is the text just after `github.com` plus one
separator; return the owner capture (`[^/]+`) and the repo capture
(`[^/.]+`) when both are non-empty and separated by a slash. -/
def repoAt (rest : List Char) : Option (List Char × List Char) :=
  let owner := rest.takeWhile (fun c => !(c == '/'))
  let afterOwner := rest.dropWhile (fun c => !(c == '/'))
  match owner, afterOwner with
  | [], _ => none
  | _, [] => none
  | o, _ :: r2 =>
    let repo := r2.takeWhile (fun c => !(c == '/') && !(c == '.'))
    if repo.isEmpty then none else some (o, repo)

/-- Leftmost unanchored match of `github\.com[:/]([^/]+)/([^/.]+)`
(`run_claude.sh` lines 439 and 491): scan left to right for the marker
and return the first position where the whole pattern matches. -/
def scanRepo : List Char → Option (List Char × List Char)
  | [] => none
  | c :: cs =>
    if seqStarts ghSepColon (c :: cs) || seqStarts ghSepSlash (c :: cs) then
      match repoAt ((c :: cs).drop 11) with
      | some p => some p
      | none => scanRepo cs
    else scanRepo cs

/-- Extraction of `REPO_OWNER` and `REPO_NAME` from a URL via the bash
regex `github\.com[:/]([^/]+)/([^/.]+)`. -/
def extractOwnerRepo (url : String) : Option (String × String) :=
  match scanRepo url.data with
  | some (o, r) => some (⟨o⟩, ⟨r⟩)
  | none => none

/-- The bash pattern `/issues/` of `extract_issue_number`. -/
def issueMarker : List Char := "/issues/".data

/-- Numeric value of a digit run, as the shell reads the captured digits. -/
def digitsVal (ds : List Char) : Nat :=
  ds.foldl (fun a c => a * 10 + (c.toNat - 48)) 0

/-- Leftmost unanchored match of `/issues/([0-9]+)` (`run_claude.sh`
lines 466-473): scan for the marker followed by a non-empty digit run and
return that run's value. -/
def scanIssue : List Char → Option Nat
  | [] => none
  | c :: cs =>
    if seqStarts issueMarker (c :: cs) then
      let ds := ((c :: cs).drop 8).takeWhile Char.isDigit
      if ds.isEmpty then scanIssue cs else some (digitsVal ds)
    else scanIssue cs

/-- The shell function `extract_issue_number` (lines 466-473). -/
def extract_issue_number (url : String) : Option Nat :=
  scanIssue url.data

/-- `REPO_PATH` as computed at lines 489-494: `owner/name` when the
repository URL matches the regex, empty otherwise. -/
def repoPathOfUrl (repoUrl : String) : String :=
  match extractOwnerRepo repoUrl with
  | some (o, r) => o ++ "/" ++ r
  | none => ""

/-- `ISSUE_NUMBER` as computed at lines 489-503: only assigned inside the
repository-regex match; taken from the issue URL when that is non-empty,
else from the subject. -/
def issueNumberOfUrls (repoUrl issueUrl subject : String) : Option Nat :=
  match extractOwnerRepo repoUrl with
  | some _ =>
    if issueUrl ≠ "" then extract_issue_number issueUrl
    else extract_issue_number subject
  | none => none

/-- Abstract behaviour of one supervised `claude` invocation: how long it
would run if left alone, the exit code it would return on a natural exit,
and whether it ignores the graceful termination signal. -/
structure ProcBehavior where
  runTime : Nat
  exitCode : Nat
  ignoresTerm : Bool
deriving DecidableEq

/-- The `--kill-after` grace window of the `timeout` invocations
(`run_claude.sh` lines 520, 523, 591). -/
def graceWindow : Nat := 30

/-- Exit code produced by `timeout --kill-after=30 $TIMEOUT claude ...`:
the process's own code on a natural exit within the budget; 124 when the
graceful signal terminates it after expiry; 137 (128+9) when it ignores
the signal and is force-killed after the grace window. -/
def superviseExit (tmo : Nat) (p : ProcBehavior) : Nat :=
  if p.runTime ≤ tmo then p.exitCode
  else if p.ignoresTerm then 137 else 124

/-- Wall-clock duration of the supervised invocation, as measured by the
script's `START_TIME`/`END_TIME` bracket. -/
def superviseDuration (tmo : Nat) (p : ProcBehavior) : Nat :=
  if p.runTime ≤ tmo then p.runTime
  else if p.ignoresTerm then tmo + graceWindow else tmo

/-- Observable supervision events of one `timeout --kill-after=30` run,
with the wall-clock second at which each occurs. -/
inductive SupEvent
  | sentTerm (t : Nat)
  | sentKill (t : Nat)
  | exited (t : Nat) (code : Nat)
deriving DecidableEq

/-- Event trace of `timeout --kill-after=30 $TIMEOUT claude ...`: a
natural exit within the budget; otherwise a graceful termination signal
at expiry, followed — only when the signal is ignored — by a force kill
after the 30-second grace window. -/
def superviseTrace (tmo : Nat) (p : ProcBehavior) : List SupEvent :=
  if p.runTime ≤ tmo then [.exited p.runTime p.exitCode]
  else if p.ignoresTerm then
    [.sentTerm tmo, .sentKill (tmo + graceWindow), .exited (tmo + graceWindow) 137]
  else [.sentTerm tmo, .exited tmo 124]

/-- The spec's ExecutionResult exit classification. -/
inductive Classification
  | Success
  | TimedOut
  | Killed
  | NonZeroExit (code : Nat)
deriving DecidableEq

/-- Classification of an exit code by the script's branch
`if EXIT_CODE -eq 124 || EXIT_CODE -eq 137 / elif EXIT_CODE -ne 0 / else`
(lines 532-546): 124 is the graceful-timeout exit, 137 the force-kill
exit, 0 success, anything else a non-zero failure carrying the code. -/
def classify (code : Nat) : Classification :=
  if code = 124 then .TimedOut
  else if code = 137 then .Killed
  else if code = 0 then .Success
  else .NonZeroExit code

/-- Work-phase timeout comment (line 533-535): note it interpolates the
`TIMEOUT` budget, not the measured `DURATION`. -/
def workTimeoutMsg (tmo code : Nat) : String :=
  "❌ Task failed: ERROR: Claude CLI command timed out after " ++ Nat.repr tmo
    ++ " seconds (exit code: " ++ Nat.repr code ++ ")"

/-- Work-phase non-zero-exit comment (lines 538-540). -/
def workFailMsg (code dur : Nat) : String :=
  "❌ Task failed: ERROR: Claude CLI command failed with exit code " ++ Nat.repr code
    ++ ". Command took " ++ Nat.repr dur ++ " seconds to complete"

/-- Work-phase success comment (lines 543-545). -/
def workSuccessMsg (dur : Nat) : String :=
  "✅ Claude CLI command completed successfully in " ++ Nat.repr dur ++ " seconds"

/-- Commit-phase timeout comment (lines 602-604). -/
def commitTimeoutMsg (tmo code : Nat) : String :=
  "❌ Commit task failed: ERROR: Commit task timed out after " ++ Nat.repr tmo
    ++ " seconds (exit code: " ++ Nat.repr code ++ ")"

/-- Commit-phase non-zero-exit comment (lines 607-609). -/
def commitFailMsg (code dur : Nat) : String :=
  "❌ Commit task failed: ERROR: Commit task failed with exit code " ++ Nat.repr code
    ++ ". Command took " ++ Nat.repr dur ++ " seconds to complete"

/-- Commit-phase success comment (lines 612-614). -/
def commitSuccessMsg (dur : Nat) : String :=
  "✅ Commit task completed successfully in " ++ Nat.repr dur ++ " seconds"

/-- The shell function `post_issue_comment` (lines 476-486): posts the
comment and returns the `gh` status only when both the issue number and
the repository path are non-empty; otherwise posts nothing and reports
failure. The first component is the function's boolean return, the second
the list of comments actually posted. -/
def post_issue_comment (ghOk : Bool) (issueNumber repoPath comment : String) :
    Bool × List String :=
  if !(issueNumber == "") && !(repoPath == "") then (ghOk, [comment]) else (false, [])

/-- The comments a `post_issue_comment` call adds to the issue. -/
def postList (issueNumber repoPath msg : String) : List String :=
  (post_issue_comment true issueNumber repoPath msg).2

/-- The message the work-phase branch (lines 532-546) posts, as a function
of budget, exit code and duration. -/
def workReportMsg (tmo code dur : Nat) : String :=
  if code = 124 || code = 137 then workTimeoutMsg tmo code
  else if code ≠ 0 then workFailMsg code dur
  else workSuccessMsg dur

/-- The message the commit-phase branch (lines 601-615) posts. -/
def commitReportMsg (tmo code dur : Nat) : String :=
  if code = 124 || code = 137 then commitTimeoutMsg tmo code
  else if code ≠ 0 then commitFailMsg code dur
  else commitSuccessMsg dur

/-- Filesystem-affecting operations of the workspace-setup block. -/
inductive FsOp
  | removeDir (path : String)
  | makeDir (path : String)
  | changeDir (path : String)
  | cloneInto (path : String)
deriving DecidableEq

/-- Inputs of one `run_claude.sh` execution: the `gh` environment checks,
the environment variables the Python side exports, and the behaviour of
the two supervised `claude` invocations. -/
structure ScriptInput where
  ghAvailable : Bool
  ghAuthenticated : Bool
  projectFolder : String
  repoUrl : String
  issueUrl : String
  subject : String
  tmo : Nat
  work : ProcBehavior
  commit : ProcBehavior
deriving DecidableEq

/-- The workspace-setup block (lines 422-463): only when the GitHub CLI is
present, authenticated, and a repository URL is set and matches the
regex, the per-repository workspace directory is removed, re-made,
entered, and cloned into. -/
def cloneSetupOps (i : ScriptInput) : List FsOp :=
  if i.ghAvailable && i.ghAuthenticated && !(i.repoUrl == "") then
    match extractOwnerRepo i.repoUrl with
    | some (o, r) =>
      let ws := i.projectFolder ++ "/workspace/" ++ o ++ "/" ++ r
      [.removeDir ws, .makeDir ws, .changeDir ws, .cloneInto ws]
    | none => []
  else []

/-- `ISSUE_NUMBER` as the shell string variable: the digits of the match,
or empty when unset. -/
def issueNumberStr (repoUrl issueUrl subject : String) : String :=
  match issueNumberOfUrls repoUrl issueUrl subject with
  | some n => Nat.repr n
  | none => ""

/-- Observable results of one `run_claude.sh` execution. -/
structure ScriptOutput where
  fsOps : List FsOp
  repoPath : String
  issueNumber : String
  workExit : Nat
  workDuration : Nat
  commitRan : Bool
  reports : List String
  exitCode : Nat
deriving DecidableEq

/-- The control flow of `run_claude.sh` after the workspace setup
(lines 505-626): supervise the work-phase invocation; on a timeout or
kill exit (124/137) or any non-zero exit, post the failure comment and
exit with that code without running the commit phase; on exit 0, post the
success comment, supervise the commit-phase invocation, post its comment,
and exit with the commit failure code or — when the commit succeeds —
with the work-phase exit code. -/
def runScript (i : ScriptInput) : ScriptOutput :=
  let ops := cloneSetupOps i
  let rp := repoPathOfUrl i.repoUrl
  let num := issueNumberStr i.repoUrl i.issueUrl i.subject
  let wexit := superviseExit i.tmo i.work
  let wdur := superviseDuration i.tmo i.work
  if wexit = 124 || wexit = 137 then
    { fsOps := ops, repoPath := rp, issueNumber := num, workExit := wexit,
      workDuration := wdur, commitRan := false,
      reports := postList num rp (workTimeoutMsg i.tmo wexit), exitCode := wexit }
  else if wexit ≠ 0 then
    { fsOps := ops, repoPath := rp, issueNumber := num, workExit := wexit,
      workDuration := wdur, commitRan := false,
      reports := postList num rp (workFailMsg wexit wdur), exitCode := wexit }
  else
    let cexit := superviseExit i.tmo i.commit
    let cdur := superviseDuration i.tmo i.commit
    let cfinal := if cexit = 124 || cexit = 137 then cexit
      else if cexit ≠ 0 then cexit else wexit
    { fsOps := ops, repoPath := rp, issueNumber := num, workExit := wexit,
      workDuration := wdur, commitRan := true,
      reports := postList num rp (workSuccessMsg wdur)
        ++ postList num rp (commitReportMsg i.tmo cexit cdur),
      exitCode := cfinal }

/-- Abstract filesystem: for each path, `none` when the directory is
absent, otherwise the number of entries it holds. -/
def FsState : Type := String → Option Nat

/-- Effect of one operation: `rm -rf` removes the directory; `mkdir -p`
creates it empty only when absent (it leaves an existing directory
untouched); `cd` changes nothing; a successful clone populates it. -/
def applyFsOp (fs : FsState) : FsOp → FsState
  | .removeDir p => fun q => if q = p then none else fs q
  | .makeDir p => fun q =>
      if q = p then some (match fs p with | none => 0 | some k => k) else fs q
  | .changeDir _ => fs
  | .cloneInto p => fun q => if q = p then some 1 else fs q

/-- Run a list of filesystem operations from an initial state. -/
def runFs (fs : FsState) (ops : List FsOp) : FsState :=
  ops.foldl applyFsOp fs

/-- The `try/except` of the per-notification loop body (lines 80-235):
any error raised while processing one notification is converted into a
log line and the loop continues with the next notification. -/
def guardNotification (step : Notification → Except String Unit)
    (n : Notification) : Option String :=
  match step n with
  | Except.ok _ => none
  | Except.error e => some ("Error processing notification: " ++ e)

/-- `check_webhook_events` (lines 60-238) at the level of its exception
structure: `fetch` abstracts the notification download (which may raise),
`step` abstracts the whole per-notification body (which may raise). The
outer `try/except` turns a fetch error into a log line; the inner one
guards each notification. The result is the list of error log lines, one
slot per processed notification. -/
def check_webhook_events (fetch : Except String (List Notification))
    (step : Notification → Except String Unit) :
    Except String (List (Option String)) :=
  match fetch with
  | Except.error e => Except.ok [some ("Error checking notifications: " ++ e)]
  | Except.ok ns => Except.ok (ns.map (guardNotification step))

/-- The `try/except` of `run_claude_cli` (lines 241-350): a raising
execution is logged and turned into `None`, never propagated. -/
def run_claude_cli (exec : Except String String) : Option String :=
  match exec with
  | Except.ok out => some out
  | Except.error _ => none

/-- The main polling loop's per-cycle guard (lines 655-663): each
`check_webhook_events` call is wrapped so that an error becomes a log
line and the loop proceeds to the next cycle. -/
def main_loop (checks : List (Except String Unit)) : List (Option String) :=
  checks.map (fun c =>
    match c with
    | Except.ok _ => none
    | Except.error e => some ("Error during webhook check: " ++ e))

theorem data_append (a b : String) : (a ++ b).data = a.data ++ b.data := rfl

theorem string_eq_of_data_eq {a b : String} (h : a.data = b.data) : a = b :=
  congrArg String.mk h

theorem takeWhile_all {p : Char → Bool} :
    ∀ l : List Char, (∀ c ∈ l, p c = true) → l.takeWhile p = l := by
  intro l h
  induction l with
  | nil => rfl
  | cons c cs ih =>
    simp [List.takeWhile_cons, h c (by simp), ih (fun x hx => h x (by simp [hx]))]

theorem takeWhile_append_stop {p : Char → Bool} :
    ∀ (xs : List Char) (y : Char) (ys : List Char), (∀ c ∈ xs, p c = true) →
      p y = false → (xs ++ y :: ys).takeWhile p = xs := by
  intro xs y ys h hy
  induction xs with
  | nil => simp [List.takeWhile_cons, hy]
  | cons c cs ih =>
    simp [List.takeWhile_cons, h c (by simp), ih (fun x hx => h x (by simp [hx]))]

theorem dropWhile_append_stop {p : Char → Bool} :
    ∀ (xs : List Char) (y : Char) (ys : List Char), (∀ c ∈ xs, p c = true) →
      p y = false → (xs ++ y :: ys).dropWhile p = y :: ys := by
  intro xs y ys h hy
  induction xs with
  | nil => simp [List.dropWhile_cons, hy]
  | cons c cs ih =>
    simp [List.dropWhile_cons, h c (by simp), ih (fun x hx => h x (by simp [hx]))]

theorem repoAt_split (o r : List Char) (ho : o ≠ [])
    (ho2 : ∀ c ∈ o, ¬c = '/') (hr : r ≠ [])
    (hr2 : ∀ c ∈ r, ¬c = '/' ∧ ¬c = '.') :
    repoAt (o ++ '/' :: r) = some (o, r) := by
  have h1 : (o ++ '/' :: r).takeWhile (fun c => !(c == '/')) = o :=
    takeWhile_append_stop o '/' r (fun c hc => by simp [ho2 c hc]) (by simp)
  have h2 : (o ++ '/' :: r).dropWhile (fun c => !(c == '/')) = '/' :: r :=
    dropWhile_append_stop o '/' r (fun c hc => by simp [ho2 c hc]) (by simp)
  have h3 : r.takeWhile (fun c => !(c == '/') && !(c == '.')) = r :=
    takeWhile_all r (fun c hc => by simp [(hr2 c hc).1, (hr2 c hc).2])
  unfold repoAt
  simp only [h1, h2]
  cases o with
  | nil => exact absurd rfl ho
  | cons a o' =>
    simp only [h3]
    cases r with
    | nil => exact absurd rfl hr
    | cons b r' => simp [List.isEmpty]

theorem scanRepo_https (t : List Char) (pr : List Char × List Char)
    (h : repoAt t = some pr) :
    scanRepo ("https://github.com/".data ++ t) = some pr := by
  have e : scanRepo ("https://github.com/".data ++ t) =
      (match repoAt t with
       | some p => some p
       | none => scanRepo ("ithub.com/".data ++ t)) := rfl
  rw [e, h]

theorem extract_repo_wellformed (o r : String) (ho : o.data ≠ [])
    (ho2 : ∀ c ∈ o.data, ¬c = '/') (hr : r.data ≠ [])
    (hr2 : ∀ c ∈ r.data, ¬c = '/' ∧ ¬c = '.') :
    extractOwnerRepo ("https://github.com/" ++ o ++ "/" ++ r) = some (o, r) := by
  have hd : ("https://github.com/" ++ o ++ "/" ++ r).data
      = "https://github.com/".data ++ (o.data ++ '/' :: r.data) := by
    rw [data_append, data_append, data_append, List.append_assoc, List.append_assoc]
    rfl
  unfold extractOwnerRepo
  rw [hd, scanRepo_https _ _ (repoAt_split o.data r.data ho ho2 hr hr2)]

theorem seqStarts_wordSlash (w : List Char) :
    ∀ (p2 xs t : List Char), '/' ∉ w → '/' ∉ xs →
      (seqStarts (w ++ '/' :: p2) (xs ++ '/' :: t) = true ↔
        w = xs ∧ seqStarts p2 t = true) := by
  induction w with
  | nil =>
    intro p2 xs t _ hxs
    cases xs with
    | nil => simp [seqStarts]
    | cons x xs' =>
      have hx : ¬('/' = x) := by
        intro h
        exact hxs (List.mem_cons.mpr (Or.inl h))
      have hb : ('/' == x) = false := by
        cases hbe : ('/' == x) with
        | false => rfl
        | true => exact absurd (eq_of_beq hbe) hx
      simp [seqStarts, hb]
  | cons a w' ih =>
    intro p2 xs t hw hxs
    cases xs with
    | nil =>
      have ha : ¬a = '/' := by
        intro h
        exact hw (List.mem_cons.mpr (Or.inl h.symm))
      have hb : (a == '/') = false := by
        cases hbe : (a == '/') with
        | false => rfl
        | true => exact absurd (eq_of_beq hbe) ha
      simp [seqStarts, hb]
    | cons x xs' =>
      have hw' : '/' ∉ w' := fun h => hw (List.mem_cons_of_mem a h)
      have hxs' : '/' ∉ xs' := fun h => hxs (List.mem_cons_of_mem x h)
      simp [seqStarts, ih p2 xs' t hw' hxs', and_assoc]

theorem scanIssue_cons_of_not (c : Char) (cs : List Char)
    (h : seqStarts issueMarker (c :: cs) = false) :
    scanIssue (c :: cs) = scanIssue cs := by
  simp [scanIssue, h]

theorem scanIssue_skip_nonslash (xs : List Char)
    (h : ∀ c ∈ xs, ¬c = '/') :
    ∀ t, scanIssue (xs ++ t) = scanIssue t := by
  induction xs with
  | nil => intro t; rfl
  | cons c cs ih =>
    intro t
    have hc : ¬c = '/' := h c (by simp)
    have hb : ('/' == c) = false := by
      cases hbe : ('/' == c) with
      | false => rfl
      | true => exact absurd (eq_of_beq hbe).symm hc
    have hfalse : seqStarts issueMarker (c :: (cs ++ t)) = false := by
      show (('/' == c) && seqStarts "issues/".data (cs ++ t)) = false
      rw [hb]
      rfl
    rw [List.cons_append, scanIssue_cons_of_not _ _ hfalse,
      ih (fun x hx => h x (by simp [hx])) t]

theorem scanIssue_marker (ds : List Char) (h1 : ds ≠ [])
    (h2 : ∀ c ∈ ds, c.isDigit = true) :
    scanIssue (issueMarker ++ ds) = some (digitsVal ds) := by
  have e : scanIssue (issueMarker ++ ds) =
      (if (ds.takeWhile Char.isDigit).isEmpty then
        scanIssue ("issues/".data ++ ds)
       else some (digitsVal (ds.takeWhile Char.isDigit))) := rfl
  rw [e, takeWhile_all ds h2]
  cases ds with
  | nil => exact absurd rfl h1
  | cons d ds' => simp [List.isEmpty]

theorem scanIssue_skip_host (R : List Char) :
    scanIssue ("https://github.com".data ++ R) = scanIssue R := rfl

theorem extract_issue_wellformed (o r : String) (ds : List Char)
    (ho2 : ∀ c ∈ o.data, ¬c = '/') (hoi : o ≠ "issues")
    (hr2 : ∀ c ∈ r.data, ¬c = '/') (hri : r ≠ "issues")
    (hds : ds ≠ []) (hdig : ∀ c ∈ ds, c.isDigit = true) :
    extract_issue_number
        ("https://github.com/" ++ o ++ "/" ++ r ++ "/issues/" ++ (⟨ds⟩ : String))
      = some (digitsVal ds) := by
  have hnoslash : '/' ∉ "issues".data := by decide
  have hod : ¬"issues".data = o.data := fun h => hoi (string_eq_of_data_eq h.symm)
  have hrd : ¬"issues".data = r.data := fun h => hri (string_eq_of_data_eq h.symm)
  have hd : ("https://github.com/" ++ o ++ "/" ++ r ++ "/issues/" ++ (⟨ds⟩ : String)).data
      = "https://github.com".data ++
        ('/' :: (o.data ++ '/' :: (r.data ++ (issueMarker ++ ds)))) := by
    rw [data_append, data_append, data_append, data_append]
    simp only [List.append_assoc]
    rfl
  have hom : '/' ∉ o.data := fun h => (ho2 '/' h) rfl
  have hrm : '/' ∉ r.data := fun h => (hr2 '/' h) rfl
  have hcond1 : seqStarts issueMarker
      ('/' :: (o.data ++ '/' :: (r.data ++ (issueMarker ++ ds)))) = false := by
    have hiff := seqStarts_wordSlash "issues".data []
      o.data (r.data ++ (issueMarker ++ ds)) hnoslash hom
    show seqStarts ("issues".data ++ '/' :: [])
      (o.data ++ '/' :: (r.data ++ (issueMarker ++ ds))) = false
    cases hbe : seqStarts ("issues".data ++ '/' :: [])
        (o.data ++ '/' :: (r.data ++ (issueMarker ++ ds))) with
    | false => rfl
    | true => exact absurd (hiff.mp hbe).1 hod
  have hcond2 : seqStarts issueMarker
      ('/' :: (r.data ++ (issueMarker ++ ds))) = false := by
    have hiff := seqStarts_wordSlash "issues".data []
      r.data ("issues/".data ++ ds) hnoslash hrm
    show seqStarts ("issues".data ++ '/' :: [])
      (r.data ++ '/' :: ("issues/".data ++ ds)) = false
    cases hbe : seqStarts ("issues".data ++ '/' :: [])
        (r.data ++ '/' :: ("issues/".data ++ ds)) with
    | false => rfl
    | true => exact absurd (hiff.mp hbe).1 hrd
  unfold extract_issue_number
  rw [hd, scanIssue_skip_host,
    scanIssue_cons_of_not _ _ hcond1,
    scanIssue_skip_nonslash o.data ho2,
    scanIssue_cons_of_not _ _ hcond2,
    scanIssue_skip_nonslash r.data hr2,
    scanIssue_marker ds hds hdig]

/-- C1 counterexample: the spec's filter classifies both an issue-closure
echo `Closed #7 as completed` and a failure report carrying the
`Task failed:` marker plus a failure glyph as noise, but the implemented
filter `isSystemComment` returns false on both — it checks only the four
fixed marker substrings, with no glyph requirement and no closure rule. -/
theorem C1_filter_counterexample :
    specIsNoise "Closed #7 as completed" = true
    ∧ isSystemComment "Closed #7 as completed" = false
    ∧ specIsNoise
        "❌ Task failed: ERROR: Claude CLI command timed out after 500 seconds (exit code: 124)"
        = true
    ∧ isSystemComment
        "❌ Task failed: ERROR: Claude CLI command timed out after 500 seconds (exit code: 124)"
        = false := by decide

/-- C1 (amended): the Feedback Filter classifies a text as self-generated
noise exactly when it contains one of the four fixed automated-comment
substrings (`Claude CLI command completed successfully`, `Issue
automatically reopened due to new comment`, `Added new changes for issue
#`, `Commit task completed successfully`); there is no status-glyph
requirement and no `Closed #<n> as completed` rule, and an ordinary
task-request body containing a plain repository URL and none of the
markers is classified as genuine work. -/
theorem C1_filter_amended (b : String) :
    (isSystemComment b = true ↔
      ∃ p ∈ system_comment_patterns, ∃ x y, b.data = x ++ p.data ++ y)
    ∧ isSystemComment "Fix bug: https://github.com/acme/widgets/issues/42" = false := by
  constructor
  · simp only [isSystemComment, List.any_eq_true, strContains, seqContains_iff]
  · decide

/-- A notification from a sender absent from any plausible trusted-sender
list, otherwise fully actionable. -/
def mallNotification : Notification :=
  { sender := "mallory@evil.com", hasSubject := true, hasRepository := true
    subjectType := some "Issue"
    repoHtmlUrl := some "https://github.com/acme/widgets"
    title := "Fix bug"
    issueBody := "Fix bug: https://github.com/acme/widgets/issues/42"
    comments := [], issueState := "open", stateReason := none
    issueHtmlUrl := "https://github.com/acme/widgets/issues/42" }

/-- Modelled from the spec (section 4.2): the exact case-insensitive
match of an event's sender against the configured trusted senders. No
such check exists anywhere in the source. -/
def senderAllowed (allow : List String) (sender : String) : Bool :=
  allow.any (fun s => s.data.map Char.toLower == sender.data.map Char.toLower)

/-- C2 counterexample: with a configured trusted-sender list
`["trusted@example.com"]`, the event's sender fails the case-insensitive
allow-list check, yet the pipeline still reaches the launch step —
extraction runs, the process is launched and reporting follows. The code
performs no sender check at all. -/
theorem C2_sender_counterexample :
    senderAllowed ["trusted@example.com"] mallNotification.sender = false
    ∧ processNotification mallNotification =
        ProcOutcome.launched "https://github.com/acme/widgets"
          "https://github.com/acme/widgets/issues/42" "Fix bug"
          "Fix bug: https://github.com/acme/widgets/issues/42" := by decide

/-- C2 (amended): the dispatcher performs no sender allow-listing at all —
the per-notification processing outcome is completely independent of the
sender identity; events are dropped only for missing fields, a
non-issue notification type, the automated-comment filter, the
empty-body/closed-issue rule, or a missing repository URL. -/
theorem C2_sender_independent (n : Notification) (s : String) :
    processNotification { n with sender := s } = processNotification n := rfl

theorem classify_eq_success_iff (c : Nat) :
    classify c = Classification.Success ↔ c = 0 := by
  unfold classify
  split_ifs with h1 h2 h3 <;> simp_all

/-- C3: the commit (finalize) phase runs exactly when the work phase's
classification is `Success` (exit code 0); on any other classification
the script posts only the work-phase report and exits with the work-phase
code, never invoking the commit phase. -/
theorem C3_commit_iff_success (i : ScriptInput) :
    ((runScript i).commitRan = true ↔
      classify (runScript i).workExit = Classification.Success)
    ∧ (classify (runScript i).workExit ≠ Classification.Success →
        (runScript i).commitRan = false
        ∧ (runScript i).reports =
            postList (runScript i).issueNumber (runScript i).repoPath
              (workReportMsg i.tmo (runScript i).workExit (runScript i).workDuration)
        ∧ (runScript i).exitCode = (runScript i).workExit) := by
  unfold runScript
  by_cases h1 : superviseExit i.tmo i.work = 124
  · simp [h1, classify, workReportMsg]
  · by_cases h2 : superviseExit i.tmo i.work = 137
    · simp [h1, h2, classify, workReportMsg]
    · by_cases h3 : superviseExit i.tmo i.work = 0
      · simp [h1, h2, h3, classify, workReportMsg]
      · simp [h1, h2, h3, classify, workReportMsg]

/-- A script run whose work-phase invocation exits with code 2. -/
def failRunInput : ScriptInput :=
  { ghAvailable := false, ghAuthenticated := false, projectFolder := "/srv"
    repoUrl := "https://github.com/acme/widgets"
    issueUrl := "https://github.com/acme/widgets/issues/42"
    subject := "Fix", tmo := 500
    work := { runTime := 10, exitCode := 2, ignoresTerm := false }
    commit := { runTime := 10, exitCode := 0, ignoresTerm := false } }

theorem C3_commit_iff_success_witness :
    classify (runScript failRunInput).workExit ≠ Classification.Success
    ∧ ((runScript failRunInput).commitRan = false
      ∧ (runScript failRunInput).reports =
          postList (runScript failRunInput).issueNumber (runScript failRunInput).repoPath
            (workReportMsg failRunInput.tmo (runScript failRunInput).workExit
              (runScript failRunInput).workDuration)
      ∧ (runScript failRunInput).exitCode = (runScript failRunInput).workExit) :=
  ⟨by decide, (C3_commit_iff_success failRunInput).2 (by decide)⟩

/-- C4: when a supervised invocation exceeds its wall-clock budget, the
supervisor first sends the graceful termination signal at expiry; a force
kill happens only 30 seconds later and only when the signal is ignored;
the resulting classification is `TimedOut` (graceful) or `Killed`
(forced), and never `Success`. -/
theorem C4_timeout_escalation (tmo : Nat) (p : ProcBehavior) (h : tmo < p.runTime) :
    (superviseTrace tmo p).head? = some (SupEvent.sentTerm tmo)
    ∧ (∀ t, SupEvent.sentKill t ∈ superviseTrace tmo p →
        t = tmo + 30 ∧ p.ignoresTerm = true)
    ∧ classify (superviseExit tmo p) =
        (if p.ignoresTerm then Classification.Killed else Classification.TimedOut)
    ∧ classify (superviseExit tmo p) ≠ Classification.Success := by
  have hn : ¬p.runTime ≤ tmo := Nat.not_le.mpr h
  unfold superviseTrace superviseExit graceWindow
  by_cases hig : p.ignoresTerm <;> simp [hn, hig, classify]

theorem C4_timeout_escalation_witness :
    500 < 600
    ∧ ((superviseTrace 500 ⟨600, 0, false⟩).head? = some (SupEvent.sentTerm 500)
      ∧ (∀ t, SupEvent.sentKill t ∈ superviseTrace 500 ⟨600, 0, false⟩ →
          t = 500 + 30 ∧ (⟨600, 0, false⟩ : ProcBehavior).ignoresTerm = true)
      ∧ classify (superviseExit 500 ⟨600, 0, false⟩) =
          (if (⟨600, 0, false⟩ : ProcBehavior).ignoresTerm then Classification.Killed
           else Classification.TimedOut)
      ∧ classify (superviseExit 500 ⟨600, 0, false⟩) ≠ Classification.Success) :=
  ⟨by decide, C4_timeout_escalation 500 ⟨600, 0, false⟩ (by decide)⟩

/-- C5: for an invocation that exits naturally within the budget, the
classification is `Success` exactly when the exit code is 0, and a
non-zero code other than the two timeout codes is classified
`NonZeroExit` carrying that code. -/
theorem C5_exit_classification (tmo : Nat) (p : ProcBehavior) (h : p.runTime ≤ tmo) :
    (classify (superviseExit tmo p) = Classification.Success ↔ p.exitCode = 0)
    ∧ (p.exitCode ≠ 0 → p.exitCode ≠ 124 → p.exitCode ≠ 137 →
        classify (superviseExit tmo p) = Classification.NonZeroExit p.exitCode) := by
  unfold superviseExit
  rw [if_pos h]
  refine ⟨classify_eq_success_iff p.exitCode, ?_⟩
  intro h0 h124 h137
  unfold classify
  simp [h0, h124, h137]

theorem C5_exit_classification_witness :
    (10 : Nat) ≤ 500
    ∧ ((classify (superviseExit 500 ⟨10, 3, false⟩) = Classification.Success ↔
          (⟨10, 3, false⟩ : ProcBehavior).exitCode = 0)
      ∧ ((⟨10, 3, false⟩ : ProcBehavior).exitCode ≠ 0 →
          (⟨10, 3, false⟩ : ProcBehavior).exitCode ≠ 124 →
          (⟨10, 3, false⟩ : ProcBehavior).exitCode ≠ 137 →
          classify (superviseExit 500 ⟨10, 3, false⟩) =
            Classification.NonZeroExit (⟨10, 3, false⟩ : ProcBehavior).exitCode)) :=
  ⟨by decide, C5_exit_classification 500 ⟨10, 3, false⟩ (by decide)⟩

theorem seqContains_append_right (p l1 l2 : List Char)
    (h : seqContains p l1 = true) : seqContains p (l1 ++ l2) = true := by
  rcases (seqContains_iff p l1).mp h with ⟨a, b, rfl⟩
  simpa [List.append_assoc] using seqContains_mid a p (b ++ l2)

theorem seqContains_suffix (a p : List Char) : seqContains p (a ++ p) = true :=
  (seqContains_iff p _).mpr ⟨a, [], by simp⟩

/-- A script run with a repository and issue context whose work phase
ignores the graceful signal and is force-killed. -/
def killedRunInput : ScriptInput :=
  { ghAvailable := false, ghAuthenticated := false, projectFolder := "/srv"
    repoUrl := "https://github.com/acme/widgets"
    issueUrl := "https://github.com/acme/widgets/issues/42"
    subject := "Fix bug", tmo := 500
    work := { runTime := 600, exitCode := 0, ignoresTerm := true }
    commit := { runTime := 5, exitCode := 0, ignoresTerm := false } }

/-- C6 counterexample: with issue `42` and repository `acme/widgets`
present, a force-killed work phase (elapsed duration 530 seconds) posts
exactly one comment — but that comment interpolates the timeout budget
(500) and exit code, not the elapsed duration: the string `530` does not
occur in it, so the timeout/kill template does not reference the elapsed
duration as the claim states. -/
theorem C6_reporter_counterexample :
    (runScript killedRunInput).issueNumber = "42"
    ∧ (runScript killedRunInput).repoPath = "acme/widgets"
    ∧ (runScript killedRunInput).workDuration = 530
    ∧ (runScript killedRunInput).reports = [workTimeoutMsg 500 137]
    ∧ strContains (Nat.repr 530) (workTimeoutMsg 500 137) = false := by decide

/-- C6 (amended): `post_issue_comment` is a no-op returning false
whenever the issue number or the repository path is absent, and otherwise
posts exactly the one given comment; the per-classification templates are
fixed: the success template carries the success glyph and the elapsed
duration, the non-zero-exit template carries the failure glyph, the exit
code and the elapsed duration, while the timeout/kill template carries
the failure glyph, the timeout budget and the exit code (not the elapsed
duration). -/
theorem C6_reporter_amended (ghOk : Bool) (num rp msg : String) (tmo code dur : Nat) :
    ((num = "" ∨ rp = "") → post_issue_comment ghOk num rp msg = (false, []))
    ∧ (num ≠ "" → rp ≠ "" → post_issue_comment ghOk num rp msg = (ghOk, [msg]))
    ∧ strContains "✅" (workSuccessMsg dur) = true
    ∧ strContains (Nat.repr dur) (workSuccessMsg dur) = true
    ∧ strContains "❌" (workFailMsg code dur) = true
    ∧ strContains (Nat.repr code) (workFailMsg code dur) = true
    ∧ strContains (Nat.repr dur) (workFailMsg code dur) = true
    ∧ strContains "❌" (workTimeoutMsg tmo code) = true
    ∧ strContains (Nat.repr tmo) (workTimeoutMsg tmo code) = true
    ∧ strContains (Nat.repr code) (workTimeoutMsg tmo code) = true := by
  refine ⟨?_, ?_, ?_, ?_, ?_, ?_, ?_, ?_, ?_, ?_⟩
  · rintro (h | h) <;> simp [post_issue_comment, h]
  · intro h1 h2
    simp [post_issue_comment, h1, h2]
  · unfold strContains workSuccessMsg
    simp only [data_append]
    exact seqContains_append_right _ _ _ (seqContains_append_right _ _ _ (by decide))
  · unfold strContains workSuccessMsg
    simp only [data_append]
    exact seqContains_append_right _ _ _ (seqContains_suffix _ _)
  · unfold strContains workFailMsg
    simp only [data_append]
    exact seqContains_append_right _ _ _ (seqContains_append_right _ _ _
      (seqContains_append_right _ _ _ (seqContains_append_right _ _ _ (by decide))))
  · unfold strContains workFailMsg
    simp only [data_append]
    exact seqContains_append_right _ _ _ (seqContains_append_right _ _ _
      (seqContains_append_right _ _ _ (seqContains_suffix _ _)))
  · unfold strContains workFailMsg
    simp only [data_append]
    exact seqContains_append_right _ _ _ (seqContains_suffix _ _)
  · unfold strContains workTimeoutMsg
    simp only [data_append]
    exact seqContains_append_right _ _ _ (seqContains_append_right _ _ _
      (seqContains_append_right _ _ _ (seqContains_append_right _ _ _ (by decide))))
  · unfold strContains workTimeoutMsg
    simp only [data_append]
    exact seqContains_append_right _ _ _ (seqContains_append_right _ _ _
      (seqContains_append_right _ _ _ (seqContains_suffix _ _)))
  · unfold strContains workTimeoutMsg
    simp only [data_append]
    exact seqContains_append_right _ _ _ (seqContains_suffix _ _)

theorem C6_reporter_amended_witness :
    post_issue_comment true "" "acme/widgets" "hello" = (false, [])
    ∧ post_issue_comment true "42" "acme/widgets" "hello" = (true, ["hello"]) :=
  ⟨(C6_reporter_amended true "" "acme/widgets" "hello" 0 0 0).1 (Or.inl rfl),
   (C6_reporter_amended true "42" "acme/widgets" "hello" 0 0 0).2.1
     (by decide) (by decide)⟩

/-- A notification whose latest comment body carries a valid
`github.com/acme/widgets/issues/42` URL while the notification itself
belongs to a different repository and issue. -/
def crossNotification : Notification :=
  { sender := "user@example.com", hasSubject := true, hasRepository := true
    subjectType := some "IssueComment"
    repoHtmlUrl := some "https://github.com/neon-demo/other-project"
    title := "Build"
    issueBody := ""
    comments := ["Please fix https://github.com/acme/widgets/issues/42"]
    issueState := "open", stateReason := none
    issueHtmlUrl := "https://github.com/neon-demo/other-project/issues/3" }

/-- C7 counterexample: the body text contains the valid URL
`https://github.com/acme/widgets/issues/42`, yet the dispatched context —
computed from the notification's repository and issue html URLs, never
from the body — is `neon-demo/other-project` with issue `3`, not
`acme/widgets` with issue `42`. Extraction does not read the body. -/
theorem C7_extraction_counterexample :
    strContains "https://github.com/acme/widgets/issues/42"
      (effectiveBody crossNotification.issueBody crossNotification.comments) = true
    ∧ processNotification crossNotification =
        ProcOutcome.launched "https://github.com/neon-demo/other-project"
          "https://github.com/neon-demo/other-project/issues/3" "Build"
          "Please fix https://github.com/acme/widgets/issues/42"
    ∧ repoPathOfUrl "https://github.com/neon-demo/other-project" = "neon-demo/other-project"
    ∧ issueNumberOfUrls "https://github.com/neon-demo/other-project"
        "https://github.com/neon-demo/other-project/issues/3" "Build" = some 3
    ∧ "neon-demo/other-project" ≠ "acme/widgets"
    ∧ (3 : Nat) ≠ 42 := by decide

/-- C7 (amended): context extraction reads the notification's repository
and issue html URLs, not the body text. For a repository URL
`https://github.com/owner/repo` — owner non-empty without `/`, repo
non-empty without `/` or `.` — the script recovers `owner/repo`; for an
issue URL of the form `.../issues/<digits>` (with neither segment
literally `issues`) it recovers the digit run's value; the issue number
is taken from the issue URL whenever that URL is non-empty; an event
whose notification carries no repository html URL is never launched; and
a repository URL with no regex match leaves the repository path empty
and the issue number unset. -/
theorem C7_extraction_amended (o r : String) (ds : List Char) (n : Notification)
    (ho : o.data ≠ []) (ho2 : ∀ c ∈ o.data, ¬c = '/') (hoi : o ≠ "issues")
    (hr : r.data ≠ []) (hr2 : ∀ c ∈ r.data, ¬c = '/' ∧ ¬c = '.') (hri : r ≠ "issues")
    (hds : ds ≠ []) (hdig : ∀ c ∈ ds, c.isDigit = true) :
    extractOwnerRepo ("https://github.com/" ++ o ++ "/" ++ r) = some (o, r)
    ∧ repoPathOfUrl ("https://github.com/" ++ o ++ "/" ++ r) = o ++ "/" ++ r
    ∧ extract_issue_number
        ("https://github.com/" ++ o ++ "/" ++ r ++ "/issues/" ++ (⟨ds⟩ : String))
        = some (digitsVal ds)
    ∧ (∀ iu : String, iu ≠ "" →
        issueNumberOfUrls ("https://github.com/" ++ o ++ "/" ++ r) iu n.title
          = extract_issue_number iu)
    ∧ (n.repoHtmlUrl = none →
        ∀ ru iu s b, processNotification n ≠ ProcOutcome.launched ru iu s b)
    ∧ (∀ u iu s : String, extractOwnerRepo u = none →
        repoPathOfUrl u = "" ∧ issueNumberOfUrls u iu s = none) := by
  have hre := extract_repo_wellformed o r ho ho2 hr hr2
  have hr2s : ∀ c ∈ r.data, ¬c = '/' := fun c hc => (hr2 c hc).1
  refine ⟨hre, ?_, extract_issue_wellformed o r ds ho2 hoi hr2s hri hds hdig,
    ?_, ?_, ?_⟩
  · unfold repoPathOfUrl
    rw [hre]
  · intro iu hiu
    unfold issueNumberOfUrls
    rw [hre]
    simp [hiu]
  · intro hnone ru iu s b hlaunch
    unfold processNotification at hlaunch
    rw [hnone] at hlaunch
    by_cases c1 : (!n.hasSubject || !n.hasRepository) = true
    · simp [c1] at hlaunch
    · by_cases c2 : (!typeOk n.subjectType) = true
      · simp [c1, c2] at hlaunch
      · by_cases c3 : isSystemComment (effectiveBody n.issueBody n.comments) = true
        · simp [c1, c2, c3] at hlaunch
        · by_cases c4 : (decide (effectiveBody n.issueBody n.comments = "") &&
              (n.issueState == "closed" || n.stateReason == some "reopened" ||
                n.stateReason == some "completed")) = true
          · simp [c1, c2, c3, c4] at hlaunch
          · simp [c1, c2, c3, c4] at hlaunch
  · intro u iu s hu
    unfold repoPathOfUrl issueNumberOfUrls
    rw [hu]
    exact ⟨rfl, rfl⟩

theorem C7_extraction_amended_witness :
    extractOwnerRepo ("https://github.com/" ++ "acme" ++ "/" ++ "widgets")
      = some ("acme", "widgets")
    ∧ extract_issue_number
        ("https://github.com/" ++ "acme" ++ "/" ++ "widgets" ++ "/issues/"
          ++ (⟨['4', '2']⟩ : String))
      = some (digitsVal ['4', '2']) :=
  ⟨(C7_extraction_amended "acme" "widgets" ['4', '2'] crossNotification
      (by decide) (by decide) (by decide) (by decide) (by decide) (by decide)
      (by decide) (by decide)).1,
   (C7_extraction_amended "acme" "widgets" ['4', '2'] crossNotification
      (by decide) (by decide) (by decide) (by decide) (by decide) (by decide)
      (by decide) (by decide)).2.2.1⟩

/-- C8: no error while processing events is fatal. A failing notification
fetch yields a logged cycle, a failure in any per-notification body is
caught and the loop still visits every notification (one result slot per
notification), each main-loop cycle survives a failing check, and a
raising execution inside `run_claude_cli` is caught and returned as
`None`. -/
theorem C8_errors_contained (fetch : Except String (List Notification))
    (step : Notification → Except String Unit)
    (checks : List (Except String Unit)) :
    (∃ logs, check_webhook_events fetch step = Except.ok logs
      ∧ ∀ ns, fetch = Except.ok ns → logs.length = ns.length)
    ∧ (main_loop checks).length = checks.length
    ∧ (∀ e, run_claude_cli (Except.error e) = none) := by
  refine ⟨?_, ?_, fun e => rfl⟩
  · cases fetch with
    | error e =>
      exact ⟨[some ("Error checking notifications: " ++ e)], rfl,
        fun ns h => Except.noConfusion h⟩
    | ok ns =>
      exact ⟨ns.map (guardNotification step), rfl, by
        intro ms h
        injection h with h1
        rw [← h1, List.length_map]⟩
  · exact List.length_map checks _

theorem C8_errors_contained_witness :
    ∃ logs, check_webhook_events (Except.ok ([] : List Notification))
        (fun _ => Except.error "boom") = Except.ok logs
      ∧ ∀ ns : List Notification,
          (Except.ok [] : Except String (List Notification)) = Except.ok ns →
            logs.length = ns.length :=
  (C8_errors_contained (Except.ok ([] : List Notification))
    (fun _ => Except.error "boom") []).1

/-- The per-repository workspace directory `WORKSPACE` of `run_claude.sh`
line 444. -/
def workspacePath (projectFolder ow rp : String) : String :=
  projectFolder ++ "/workspace/" ++ ow ++ "/" ++ rp

/-- A script run with a repository context but with the GitHub CLI not
authenticated. -/
def unauthenticatedRunInput : ScriptInput :=
  { ghAvailable := true, ghAuthenticated := false, projectFolder := "/srv"
    repoUrl := "https://github.com/acme/widgets"
    issueUrl := "https://github.com/acme/widgets/issues/42"
    subject := "Fix", tmo := 500
    work := { runTime := 10, exitCode := 0, ignoresTerm := false }
    commit := { runTime := 10, exitCode := 0, ignoresTerm := false } }

/-- C9 counterexample: a dispatch whose notification carries a full
repository context (`acme/widgets`, issue 42) but whose environment lacks
an authenticated GitHub CLI performs no filesystem operation at all — the
workspace directory is neither removed nor re-made — while the work phase
still runs and reports against that repository context. -/
theorem C9_workspace_counterexample :
    (runScript unauthenticatedRunInput).fsOps = []
    ∧ (runScript unauthenticatedRunInput).repoPath = "acme/widgets"
    ∧ (runScript unauthenticatedRunInput).issueNumber = "42"
    ∧ (runScript unauthenticatedRunInput).workExit = 0
    ∧ (runScript unauthenticatedRunInput).reports
        = [workSuccessMsg 10, commitSuccessMsg 10] := by decide

/-- C9 (amended): at the start of every work phase that has a repository
context and for which the GitHub CLI is available and authenticated, the
per-repository workspace directory (keyed `owner/repo` under the
`workspace` root of the project folder) is first removed and then
re-made before the clone, so that — whatever its prior contents — it
exists and is empty at the moment the repository is cloned into it. -/
theorem C9_workspace_amended (i : ScriptInput) (ow rp : String) (fs0 : FsState)
    (hgh : i.ghAvailable = true) (hauth : i.ghAuthenticated = true)
    (hm : extractOwnerRepo i.repoUrl = some (ow, rp)) :
    cloneSetupOps i =
      [FsOp.removeDir (workspacePath i.projectFolder ow rp),
       FsOp.makeDir (workspacePath i.projectFolder ow rp),
       FsOp.changeDir (workspacePath i.projectFolder ow rp),
       FsOp.cloneInto (workspacePath i.projectFolder ow rp)]
    ∧ runFs fs0
        [FsOp.removeDir (workspacePath i.projectFolder ow rp),
         FsOp.makeDir (workspacePath i.projectFolder ow rp),
         FsOp.changeDir (workspacePath i.projectFolder ow rp)]
        (workspacePath i.projectFolder ow rp) = some 0 := by
  have hne : i.repoUrl ≠ "" := by
    intro h
    rw [h] at hm
    have : extractOwnerRepo "" = none := rfl
    rw [this] at hm
    exact Option.noConfusion hm
  have hbe : (i.repoUrl == "") = false := by
    cases hb : (i.repoUrl == "") with
    | false => rfl
    | true => exact absurd (eq_of_beq hb) hne
  constructor
  · unfold cloneSetupOps
    rw [hgh, hauth, hbe, hm]
    rfl
  · simp [runFs, applyFsOp]

theorem C9_workspace_amended_witness :
    cloneSetupOps
        { ghAvailable := true, ghAuthenticated := true, projectFolder := "/srv"
          repoUrl := "https://github.com/acme/widgets"
          issueUrl := "https://github.com/acme/widgets/issues/42"
          subject := "Fix", tmo := 500
          work := { runTime := 10, exitCode := 0, ignoresTerm := false }
          commit := { runTime := 10, exitCode := 0, ignoresTerm := false } } =
      [FsOp.removeDir (workspacePath "/srv" "acme" "widgets"),
       FsOp.makeDir (workspacePath "/srv" "acme" "widgets"),
       FsOp.changeDir (workspacePath "/srv" "acme" "widgets"),
       FsOp.cloneInto (workspacePath "/srv" "acme" "widgets")]
    ∧ runFs (fun _ => some 5)
        [FsOp.removeDir (workspacePath "/srv" "acme" "widgets"),
         FsOp.makeDir (workspacePath "/srv" "acme" "widgets"),
         FsOp.changeDir (workspacePath "/srv" "acme" "widgets")]
        (workspacePath "/srv" "acme" "widgets") = some 0 :=
  C9_workspace_amended
    { ghAvailable := true, ghAuthenticated := true, projectFolder := "/srv"
      repoUrl := "https://github.com/acme/widgets"
      issueUrl := "https://github.com/acme/widgets/issues/42"
      subject := "Fix", tmo := 500
      work := { runTime := 10, exitCode := 0, ignoresTerm := false }
      commit := { runTime := 10, exitCode := 0, ignoresTerm := false } }
    "acme" "widgets" (fun _ => some 5) rfl rfl (by decide)

/-- C10: when the issue has at least one comment, the body used by the
pipeline is the last element of the comments list — the filter sees it
and any launched dispatch carries it as the prompt body — while an issue
with no comments keeps its own body. -/
theorem C10_latest_comment (n : Notification) (h : n.comments ≠ []) :
    effectiveBody n.issueBody n.comments = n.comments.getLast h
    ∧ (∀ ru iu s b, processNotification n = ProcOutcome.launched ru iu s b →
        b = n.comments.getLast h)
    ∧ (∀ ib : String, effectiveBody ib [] = ib)
    ∧ (n.hasSubject = true → n.hasRepository = true → typeOk n.subjectType = true →
        isSystemComment (n.comments.getLast h) = true →
        processNotification n = ProcOutcome.droppedNoise) := by
  have h1 : effectiveBody n.issueBody n.comments = n.comments.getLast h := by
    unfold effectiveBody
    rw [List.getLast?_eq_getLast n.comments h]
  refine ⟨h1, ?_, fun ib => rfl, ?_⟩
  · intro ru iu s b hlaunch
    unfold processNotification at hlaunch
    by_cases c1 : (!n.hasSubject || !n.hasRepository) = true
    · simp [c1] at hlaunch
    · by_cases c2 : (!typeOk n.subjectType) = true
      · simp [c1, c2] at hlaunch
      · by_cases c3 : isSystemComment (effectiveBody n.issueBody n.comments) = true
        · simp [c1, c2, c3] at hlaunch
        · by_cases c4 : (decide (effectiveBody n.issueBody n.comments = "") &&
              (n.issueState == "closed" || n.stateReason == some "reopened" ||
                n.stateReason == some "completed")) = true
          · simp [c1, c2, c3, c4] at hlaunch
          · cases hru : n.repoHtmlUrl with
            | none => simp [c1, c2, c3, c4, hru] at hlaunch
            | some u =>
              simp only [c1, c2, c3, c4, hru, if_false, Bool.false_eq_true] at hlaunch
              injection hlaunch with e1 e2 e3 e4
              rw [← e4, h1]
  · intro hs hr ht hnoise
    unfold processNotification
    rw [if_neg (by simp [hs, hr]), if_neg (by simp [ht])]
    rw [if_pos (by rw [h1]; exact hnoise)]

/-- A notification with two comments; the second is the most recent. -/
def latestCommentNotification : Notification :=
  { sender := "u", hasSubject := true, hasRepository := true
    subjectType := some "IssueComment"
    repoHtmlUrl := some "https://github.com/acme/widgets"
    title := "T", issueBody := "original body"
    comments := ["first task", "second task"]
    issueState := "open", stateReason := none
    issueHtmlUrl := "https://github.com/acme/widgets/issues/42" }

theorem C10_latest_comment_witness :
    latestCommentNotification.comments ≠ []
    ∧ effectiveBody latestCommentNotification.issueBody
        latestCommentNotification.comments
      = latestCommentNotification.comments.getLast (by decide) :=
  ⟨by decide, (C10_latest_comment latestCommentNotification (by decide)).1⟩
